import Mathlib

set_option maxHeartbeats 1000000

/-!
Verification of the nth-root dispatch core (`src/function/arithmetic/nthRoot.js`).

The file embeds the source shallowly:
* JavaScript numbers are modelled by `JSNum`: NaN, the two infinities, or a
  finite value carried as an exact rational.  Negative zero is identified with
  zero (matching the behaviour of `===`, which the source uses for all its
  zero tests), and double rounding is abstracted away: `Math.pow` and the
  high-precision `pow` of the decimal library are opaque parameters of the
  embedded functions, so every theorem quantifies over them.
* Decimal.js values are modelled by `BigNum`: a numeric value together with
  the precision of the constructor class that created it.
* The traversal algorithms (`algorithm01`, `algorithm02`, `algorithm06`,
  `algorithm11`, `algorithm13`, `algorithm14`) are imported by the source from
  `../../type/matrix/utils/` and their code is not part of this repository
  snapshot; they are modelled from the specification (see the individual doc
  comments).
-/

/-- A JavaScript number: NaN, one of the two infinities, or a finite value
(modelled as an exact rational; negative zero is identified with zero, which
matches the `===` comparisons the source performs). -/
inductive JSNum where
  | nan : JSNum
  | inf : JSNum
  | ninf : JSNum
  | fin : ℚ → JSNum
deriving DecidableEq

/-- JavaScript `<` on numbers: any comparison involving NaN is false. -/
def jsLt : JSNum → JSNum → Bool
  | .nan, _ => false
  | _, .nan => false
  | .ninf, .ninf => false
  | .ninf, _ => true
  | _, .ninf => false
  | .inf, _ => false
  | .fin _, .inf => true
  | .fin a, .fin b => decide (a < b)

/-- JavaScript unary minus on numbers. -/
def jsNeg : JSNum → JSNum
  | .nan => .nan
  | .inf => .ninf
  | .ninf => .inf
  | .fin q => .fin (-q)

/-- JavaScript `Math.abs`. -/
def jsAbs : JSNum → JSNum
  | .nan => .nan
  | .inf => .inf
  | .ninf => .inf
  | .fin q => .fin (if q < 0 then -q else q)

/-- JavaScript `isFinite`. -/
def jsFinite : JSNum → Bool
  | .fin _ => true
  | _ => false

/-- Exact rational product.  It is spelled with `Rat.divInt` rather than `*`
because the field operations on `ℚ` are `@[irreducible]` and would block
kernel evaluation of concrete witnesses; `qMul_eq_mul` certifies that it is
exactly multiplication. -/
def qMul (a b : ℚ) : ℚ := Rat.divInt (a.num * b.num) (a.den * b.den)

/-- Exact rational difference (see `qMul`); `qSub_eq_sub` certifies it. -/
def qSub (a b : ℚ) : ℚ := Rat.divInt (a.num * b.den - b.num * a.den) (a.den * b.den)

/-- Exact rational inverse (with `qInv 0 = 0`, as for `Inv ℚ`); certified by
`qInv_eq_inv`. -/
def qInv (a : ℚ) : ℚ := Rat.divInt a.den a.num

/-- Exact rational quotient (with `qDiv a 0 = 0`); certified by
`qDiv_eq_div`. -/
def qDiv (a b : ℚ) : ℚ := qMul a (qInv b)

/-- An integer as a rational; certified by `intToQ_eq_cast`. -/
def intToQ (t : ℤ) : ℚ := Rat.divInt t 1

theorem qMul_eq_mul (a b : ℚ) : qMul a b = a * b := by
  have ha : ((a.den : ℚ)) ≠ 0 := Nat.cast_ne_zero.mpr a.den_ne_zero
  have hb : ((b.den : ℚ)) ≠ 0 := Nat.cast_ne_zero.mpr b.den_ne_zero
  rw [qMul, Rat.divInt_eq_div]
  push_cast
  rw [← div_mul_div_comm, Rat.num_div_den, Rat.num_div_den]

theorem qSub_eq_sub (a b : ℚ) : qSub a b = a - b := by
  have ha : ((a.den : ℚ)) ≠ 0 := Nat.cast_ne_zero.mpr a.den_ne_zero
  have hb : ((b.den : ℚ)) ≠ 0 := Nat.cast_ne_zero.mpr b.den_ne_zero
  rw [qSub, Rat.divInt_eq_div]
  push_cast
  conv_rhs => rw [← Rat.num_div_den a, ← Rat.num_div_den b]
  rw [div_sub_div _ _ ha hb]
  ring_nf

theorem qInv_eq_inv (a : ℚ) : qInv a = a⁻¹ := (Rat.inv_def' a).symm

theorem qDiv_eq_div (a b : ℚ) : qDiv a b = a / b := by
  rw [qDiv, qMul_eq_mul, qInv_eq_inv, div_eq_mul_inv]

theorem intToQ_eq_cast (t : ℤ) : intToQ t = (t : ℚ) := by
  rw [intToQ, Rat.divInt_eq_div]
  simp

/-- Truncation toward zero, as used by the JavaScript `%` operator: the
magnitude is divided with Nat division (which floors), and the sign of the
argument is put back. -/
def jsTrunc (q : ℚ) : ℤ :=
  if q.num < 0 then -((q.num.natAbs / q.den : ℕ) : ℤ) else ((q.num.natAbs / q.den : ℕ) : ℤ)

/-- JavaScript `%` (floating-point remainder): NaN propagates, an infinite
dividend gives NaN, an infinite divisor returns the finite dividend, and a
zero divisor gives NaN; otherwise the result is `q - n * trunc(q / n)`, whose
sign follows the dividend. -/
def jsMod : JSNum → JSNum → JSNum
  | .nan, _ => .nan
  | _, .nan => .nan
  | .inf, _ => .nan
  | .ninf, _ => .nan
  | .fin q, .inf => .fin q
  | .fin q, .ninf => .fin q
  | .fin q, .fin n =>
    if n = 0 then .nan else .fin (qSub q (qMul n (intToQ (jsTrunc (qDiv q n)))))

/-- JavaScript `/` on numbers (negative zero identified with zero): NaN
propagates, Infinity/Infinity is NaN, a finite value divided by an infinity
is zero, an infinity divided by a finite value keeps its (combined) sign, and
a nonzero finite value divided by zero is a signed infinity. -/
def jsDiv : JSNum → JSNum → JSNum
  | .nan, _ => .nan
  | _, .nan => .nan
  | .inf, .inf => .nan
  | .inf, .ninf => .nan
  | .ninf, .inf => .nan
  | .ninf, .ninf => .nan
  | .inf, .fin q => if q < 0 then .ninf else .inf
  | .ninf, .fin q => if q < 0 then .inf else .ninf
  | .fin _, .inf => .fin 0
  | .fin _, .ninf => .fin 0
  | .fin a, .fin b =>
    if b = 0 then (if 0 < a then .inf else if a < 0 then .ninf else .nan)
    else .fin (qDiv a b)

/-- Error taxonomy of the specification, mapped onto the `throw` sites of the
source (which throws plain `Error`s: `Root must be non-zero` both for a zero
root and for the dispatcher density checks, `Root must be odd when a is
negative.` for the parity check, and a dimension mismatch inside the
dense-dense traversal). -/
inductive NthRootError where
  | invalidRoot : NthRootError
  | invalidRootParity : NthRootError
  | nonInvertibleZero : NthRootError
  | dimensionMismatch : NthRootError
deriving DecidableEq

/-- Embedding of the double-precision helper `_nthRoot(a, root)` of the
source.  `Math.pow` is abstracted as the parameter `pw`; apart from it the
definition mirrors the source line by line: remember the sign of the root and
continue with its absolute value, reject a zero root, reject a negative base
unless the absolute root passes the oddness test `abs(root) % 2 === 1`, handle
the zero and non-finite bases, and otherwise compute `pow(|a|, 1/root)`,
restore the sign of the base, and invert the result when the root was
negative. -/
def _nthRoot (pw : JSNum → JSNum → JSNum) (a root : JSNum) : Except NthRootError JSNum :=
  let inv := jsLt root (.fin 0)
  let root1 := if inv then jsNeg root else root
  if root1 = .fin 0 then .error .invalidRoot
  else if jsLt a (.fin 0) = true ∧ jsMod (jsAbs root1) (.fin 2) ≠ .fin 1 then
    .error .invalidRootParity
  else if a = .fin 0 then .ok (if inv then .inf else .fin 0)
  else if jsFinite a = false then .ok (if inv then .fin 0 else a)
  else
    let x := pw (jsAbs a) (jsDiv (.fin 1) root1)
    let x1 := if jsLt a (.fin 0) then jsNeg x else x
    .ok (if inv then jsDiv (.fin 1) x1 else x1)

/-- A Decimal.js arbitrary-precision value: the numeric value together with
the precision setting of the constructor class it was created from. -/
structure BigNum where
  val : JSNum
  prec : ℕ
deriving DecidableEq

/-- What `_bigNthRoot` can return: the source returns the native JavaScript
number `0` in one branch and BigNumber instances everywhere else. -/
inductive BigResult where
  | native : JSNum → BigResult
  | big : BigNum → BigResult
deriving DecidableEq

/-- Decimal.js `isNegative()` (NaN is not negative; negative zero is
identified with zero in the model). -/
def bigIsNeg (v : JSNum) : Bool := jsLt v (.fin 0)

/-- Embedding of `_bigNthRoot(a, root)` of the source.  `P` is the global
`BigNumber.precision` read at entry; `Big` is the clone of the constructor
with precision `P + 2`.  The arbitrary-precision `pow` (together with the
divisions feeding it) is abstracted as `bigPow`, and `toPrecision` followed by
reconstruction at the caller precision as `toPrec`.  The branch structure
mirrors the source: sign of the root, zero-root check, parity check, the zero
base returning the native number `0` or `new Big(Infinity)`, the non-finite
base returning `zero` (a BigNumber built by the caller-precision constructor)
or the argument `a` unchanged, and otherwise the computed root rounded back to
precision `P`. -/
def _bigNthRoot (P : ℕ) (bigPow : JSNum → JSNum → JSNum) (toPrec : JSNum → ℕ → JSNum)
    (a root : BigNum) : Except NthRootError BigResult :=
  let inv := bigIsNeg root.val
  let root1 : BigNum := if inv then ⟨jsNeg root.val, root.prec⟩ else root
  if root1.val = .fin 0 then .error .invalidRoot
  else if bigIsNeg a.val = true ∧ jsMod (jsAbs root1.val) (.fin 2) ≠ .fin 1 then
    .error .invalidRootParity
  else if a.val = .fin 0 then .ok (if inv then .big ⟨.inf, P + 2⟩ else .native (.fin 0))
  else if jsFinite a.val = false then .ok (if inv then .big ⟨.fin 0, P⟩ else .big a)
  else
    let x := bigPow (jsAbs a.val) (jsDiv (.fin 1) root1.val)
    let x1 := if bigIsNeg a.val then jsNeg x else x
    .ok (.big ⟨toPrec (if inv then jsDiv (.fin 1) x1 else x1) P, P⟩)

deriving instance DecidableEq for Except

example : _nthRoot (fun _ _ => .fin 3) (.fin 9) (.fin 2) = .ok (.fin 3) := by decide
example : _nthRoot (fun _ _ => .fin 2) (.fin (-8)) (.fin 3) = .ok (.fin (-2)) := by decide
example : _nthRoot (fun _ _ => .fin 2) (.fin (-4)) (.fin 2) = .error .invalidRootParity := by
  decide
example : _nthRoot (fun _ _ => .fin 2) .nan (.fin 0) = .error .invalidRoot := by decide
example : _nthRoot (fun _ _ => .fin 2) (.fin 0) (.fin (-2)) = .ok .inf := by decide
example : _nthRoot (fun _ _ => .fin 2) .nan (.fin (-2)) = .ok (.fin 0) := by decide
example : _bigNthRoot 10 (fun _ _ => .fin 2) (fun v _ => v) ⟨.fin 0, 10⟩ ⟨.fin (-2), 10⟩ =
    .ok (.big ⟨.inf, 12⟩) := by decide
example : _bigNthRoot 10 (fun _ _ => .fin 2) (fun v _ => v) ⟨.fin 0, 10⟩ ⟨.fin 2, 10⟩ =
    .ok (.native (.fin 0)) := by decide

/-- A SparseMatrix.  The source stores compressed-sparse-column arrays
(`values`, `index`, `ptr`); the model keeps the same information as an
explicit list of stored `(row, column, value)` entries together with the
dimensions, which is all the dispatcher and the claims inspect. -/
structure SparseM where
  rows : ℕ
  cols : ℕ
  entries : List (ℕ × ℕ × JSNum)
deriving DecidableEq

/-- `density()` of a SparseMatrix: number of stored entries over total size,
as an exact rational (the source computes the same ratio in floating point
and compares it with `=== 1`). -/
def SparseM.density (m : SparseM) : ℚ :=
  Rat.divInt (m.entries.length : ℤ) ((m.rows * m.cols : ℕ) : ℤ)

/-- A DenseMatrix: dimensions and a row-major nested list of values. -/
structure DenseM where
  rows : ℕ
  cols : ℕ
  data : List (List JSNum)
deriving DecidableEq

/-- Value of a dense matrix at a coordinate (out-of-range reads, which the
traversals never perform on well-formed input, give zero). -/
def DenseM.get (m : DenseM) (i j : ℕ) : JSNum := (m.data.getD i []).getD j (.fin 0)

/-- Value of a sparse matrix at a coordinate: the stored value if the
coordinate is stored, and the implicit zero otherwise. -/
def SparseM.get (m : SparseM) (i j : ℕ) : JSNum :=
  match m.entries.find? (fun e => e.1 == i && e.2.1 == j) with
  | some e => e.2.2
  | none => .fin 0

/-- The scalar callback threaded through every traversal: a binary operation
that can fail. -/
abbrev ScalarOp := JSNum → JSNum → Except NthRootError JSNum

/-- Builds the row-major data of a dense result, propagating the first error
raised by the callback. -/
def buildDense (rows cols : ℕ) (f : ℕ → ℕ → Except NthRootError JSNum) :
    Except NthRootError DenseM := do
  let d ← (List.range rows).mapM (fun i => (List.range cols).mapM (fun j => f i j))
  pure ⟨rows, cols, d⟩

/-- Applies the callback at each listed coordinate of a pair of sparse
operands, propagating errors. -/
def sparseCompute (op : ScalarOp) (x y : SparseM) :
    List (ℕ × ℕ) → Except NthRootError (List (ℕ × ℕ × JSNum))
  | [] => .ok []
  | c :: cs =>
    match op (x.get c.1 c.2) (y.get c.1 c.2), sparseCompute op x y cs with
    | .error e, _ => .error e
    | .ok _, .error e => .error e
    | .ok v, .ok vs => .ok ((c.1, c.2, v) :: vs)

/-- Applies the callback between each stored entry of a sparse operand and a
scalar, propagating errors; `inverse` puts the scalar on the left. -/
def scalarCompute (op : ScalarOp) (s : JSNum) (inverse : Bool) :
    List (ℕ × ℕ × JSNum) → Except NthRootError (List (ℕ × ℕ × JSNum))
  | [] => .ok []
  | e :: es =>
    match (if inverse then op s e.2.2 else op e.2.2 s), scalarCompute op s inverse es with
    | .error err, _ => .error err
    | .ok _, .error err => .error err
    | .ok v, .ok vs => .ok ((e.1, e.2.1, v) :: vs)

/-- Modelled from the spec: `algorithm01` (dense-sparse traversal with dense
result) is imported from `../../type/matrix/utils/algorithm01` and its code is
not in this repository snapshot.  Per the specification the sparse operand
must have density 1 (otherwise `NonInvertibleZero`), and when it does every
coordinate is effectively stored, so the result is computed
coordinate-by-coordinate and is dense; `inverse` swaps the operand order fed
to the callback. -/
def algorithm01 (op : ScalarOp) (x : DenseM) (y : SparseM) (inverse : Bool) :
    Except NthRootError DenseM :=
  if y.density = 1 then
    buildDense x.rows x.cols (fun i j =>
      if inverse then op (y.get i j) (x.get i j) else op (x.get i j) (y.get i j))
  else .error .nonInvertibleZero

/-- Modelled from the spec: `algorithm02` (the other dense-sparse traversal)
is imported from `../../type/matrix/utils/algorithm02` and its code is not in
this repository snapshot.  Per the specification the sparse operand must have
density 1 — otherwise the strategy fails with `NonInvertibleZero` — and the
result is computed coordinate-by-coordinate and returned as dense (the
result's storage kind is dense because one input was dense). -/
def algorithm02 (op : ScalarOp) (d : DenseM) (s : SparseM) (inverse : Bool) :
    Except NthRootError DenseM :=
  if s.density = 1 then
    buildDense d.rows d.cols (fun i j =>
      if inverse then op (s.get i j) (d.get i j) else op (d.get i j) (s.get i j))
  else .error .nonInvertibleZero

/-- Modelled from the spec: `algorithm06` (sparse-sparse traversal) is
imported from `../../type/matrix/utils/algorithm06` and its code is not in
this repository snapshot.  Per the specification the second operand must have
density 1 (otherwise `NonInvertibleZero`); the traversal walks the union of
the stored coordinate sets and produces a sparse result. -/
def algorithm06 (op : ScalarOp) (x y : SparseM) : Except NthRootError SparseM :=
  if y.density = 1 then
    (sparseCompute op x y
        ((x.entries.map (fun e => (e.1, e.2.1)) ++
          y.entries.map (fun e => (e.1, e.2.1))).eraseDups)).map
      (fun es => ⟨x.rows, x.cols, es⟩)
  else .error .nonInvertibleZero

/-- Modelled from the spec: `algorithm11` (sparse-scalar broadcast) is
imported from `../../type/matrix/utils/algorithm11` and its code is not in
this repository snapshot.  Per the specification the broadcast touches only
the stored coordinates — implicit zeros are skipped by construction and stay
implicit — and the result is sparse; the specification's design notes state
that the source has no guard for the negative-root-over-implicit-zeros case,
so none is modelled.  `inverse` puts the scalar on the left of the
callback. -/
def algorithm11 (op : ScalarOp) (m : SparseM) (s : JSNum) (inverse : Bool) :
    Except NthRootError SparseM :=
  (scalarCompute op s inverse m.entries).map (fun es => ⟨m.rows, m.cols, es⟩)

/-- Modelled from the spec: `algorithm13` (dense-dense traversal) is imported
from `../../type/matrix/utils/algorithm13` and its code is not in this
repository snapshot.  Per the specification the shapes must match exactly
(otherwise `DimensionMismatch`) and the callback is applied at every
coordinate, producing a dense result. -/
def algorithm13 (op : ScalarOp) (x y : DenseM) : Except NthRootError DenseM :=
  if x.rows = y.rows ∧ x.cols = y.cols then
    buildDense x.rows x.cols (fun i j => op (x.get i j) (y.get i j))
  else .error .dimensionMismatch

/-- Modelled from the spec: `algorithm14` (dense-scalar broadcast) is imported
from `../../type/matrix/utils/algorithm14` and its code is not in this
repository snapshot.  Per the specification the callback is applied at every
coordinate of the dense operand, producing a dense result; `inverse` puts the
scalar on the left of the callback. -/
def algorithm14 (op : ScalarOp) (d : DenseM) (s : JSNum) (inverse : Bool) :
    Except NthRootError DenseM :=
  buildDense d.rows d.cols (fun i j =>
    if inverse then op s (d.get i j) else op (d.get i j) s)

/-- An operand of the two-argument dispatcher: a native scalar, a dense
matrix, or a sparse matrix.  (BigNumber scalars follow the same dispatch
cells through `number | BigNumber` signatures; arrays are converted to
matrices before re-dispatch, and the unsupported Complex operands throw
immediately — none of these change the cells modelled here, which are the
ones the claims are about.) -/
inductive Operand where
  | num : JSNum → Operand
  | dense : DenseM → Operand
  | sparse : SparseM → Operand
deriving DecidableEq

/-- A value returned by the dispatcher. -/
inductive RValue where
  | num : JSNum → RValue
  | dense : DenseM → RValue
  | sparse : SparseM → RValue
deriving DecidableEq

/-- The typed dispatcher `nthRoot` of the source, restricted to two arguments
over native scalars and matrices.  Each match arm transcribes one signature
of the `typed(name, {...})` table: the three cells with a SparseMatrix root
operand check `y.density() === 1` and otherwise throw (`NonInvertibleZero`
in the specification's taxonomy), the `SparseMatrix, DenseMatrix` cell calls
`algorithm02(y, x, nthRoot, true)` unconditionally, and the scalar cells call
`_nthRoot`. -/
def nthRoot2 (pw : JSNum → JSNum → JSNum) : Operand → Operand → Except NthRootError RValue
  | .num a, .num r => (_nthRoot pw a r).map .num
  | .sparse x, .sparse y =>
    if y.density = 1 then (algorithm06 (_nthRoot pw) x y).map .sparse
    else .error .nonInvertibleZero
  | .sparse x, .dense y => (algorithm02 (_nthRoot pw) y x true).map .dense
  | .dense x, .sparse y =>
    if y.density = 1 then (algorithm01 (_nthRoot pw) x y false).map .dense
    else .error .nonInvertibleZero
  | .dense x, .dense y => (algorithm13 (_nthRoot pw) x y).map .dense
  | .sparse x, .num r => (algorithm11 (_nthRoot pw) x r false).map .sparse
  | .dense x, .num r => (algorithm14 (_nthRoot pw) x r false).map .dense
  | .num a, .sparse y =>
    if y.density = 1 then (algorithm11 (_nthRoot pw) y a true).map .sparse
    else .error .nonInvertibleZero
  | .num a, .dense y => (algorithm14 (_nthRoot pw) y a true).map .dense

/-- Whether an operand is a matrix (dense or sparse). -/
def Operand.isMat : Operand → Bool
  | .num _ => false
  | _ => true

/-- Whether an operand is a dense matrix. -/
def Operand.isDense : Operand → Bool
  | .dense _ => true
  | _ => false

/-- Whether a result is a dense matrix. -/
def RValue.isDenseM : RValue → Bool
  | .dense _ => true
  | _ => false

/-- Whether a result is a sparse matrix. -/
def RValue.isSparseM : RValue → Bool
  | .sparse _ => true
  | _ => false

example : SparseM.density ⟨2, 2, [(0, 0, .fin 4)]⟩ < 1 := by decide
example : SparseM.density ⟨1, 1, [(0, 0, .fin 8)]⟩ = 1 := by decide
example : nthRoot2 (fun _ _ => .fin 2) (.num (.fin 2)) (.sparse ⟨2, 2, [(0, 0, .fin 4)]⟩) =
    .error .nonInvertibleZero := by decide
example : nthRoot2 (fun _ _ => .fin 2) (.sparse ⟨2, 2, [(0, 0, .fin 4)]⟩) (.num (.fin (-2))) =
    .ok (.sparse ⟨2, 2, [(0, 0, .fin (Rat.divInt 1 2))]⟩) := by decide
example : nthRoot2 (fun _ _ => .fin 2) (.sparse ⟨2, 2, [(0, 0, .fin 4)]⟩)
    (.dense ⟨2, 2, [[.fin 2, .fin 2], [.fin 2, .fin 2]]⟩) = .error .nonInvertibleZero := by decide
example : nthRoot2 (fun _ _ => .fin 2) (.sparse ⟨1, 1, [(0, 0, .fin 4)]⟩)
    (.dense ⟨1, 1, [[.fin 2]]⟩) = .ok (.dense ⟨1, 1, [[.fin 2]]⟩) := by decide

theorem jsNeg_jsNeg (r : JSNum) : jsNeg (jsNeg r) = r := by
  cases r <;> simp [jsNeg]

theorem jsAbs_jsNeg (r : JSNum) : jsAbs (jsNeg r) = jsAbs r := by
  cases r with
  | fin q =>
    rcases lt_trichotomy q 0 with h | h | h <;>
      simp_all [jsAbs, jsNeg, not_lt.mpr h.le, le_of_eq]
  | _ => rfl

theorem jsNeg_ne_zero {r : JSNum} (h : r ≠ .fin 0) : jsNeg r ≠ .fin 0 := by
  cases r <;> simp_all [jsNeg]

theorem jsLt_zero_pos {r : JSNum} (h : jsLt (.fin 0) r = true) :
    r = .inf ∨ ∃ q, r = .fin q ∧ 0 < q := by
  cases r with
  | nan => simp [jsLt] at h
  | inf => exact Or.inl rfl
  | ninf => simp [jsLt] at h
  | fin q => exact Or.inr ⟨q, rfl, by simpa [jsLt] using h⟩

theorem jsLt_zero_neg {r : JSNum} (h : jsLt r (.fin 0) = true) :
    r = .ninf ∨ ∃ q, r = .fin q ∧ q < 0 := by
  cases r with
  | nan => simp [jsLt] at h
  | inf => simp [jsLt] at h
  | ninf => exact Or.inl rfl
  | fin q => exact Or.inr ⟨q, rfl, by simpa [jsLt] using h⟩

theorem pos_root_facts {r : JSNum} (h : jsLt (.fin 0) r = true) :
    jsLt r (.fin 0) = false ∧ r ≠ .fin 0 := by
  rcases jsLt_zero_pos h with rfl | ⟨q, rfl, hq⟩
  · exact ⟨rfl, by simp⟩
  · exact ⟨by simp [jsLt, not_lt.mpr hq.le], by simp [hq.ne']⟩

theorem neg_root_facts {r : JSNum} (h : jsLt r (.fin 0) = true) :
    jsNeg r ≠ .fin 0 ∧ jsLt (.fin 0) (jsNeg r) = true := by
  rcases jsLt_zero_neg h with rfl | ⟨q, rfl, hq⟩
  · exact ⟨by simp [jsNeg], rfl⟩
  · exact ⟨by simp [jsNeg, hq.ne], by simp [jsNeg, jsLt, neg_pos.mpr hq]⟩

theorem jsNeg_lt_zero {r : JSNum} (h : jsLt (.fin 0) r = true) :
    jsLt (jsNeg r) (.fin 0) = true := by
  rcases jsLt_zero_pos h with rfl | ⟨q, rfl, hq⟩
  · rfl
  · simp [jsNeg, jsLt, neg_neg_iff_pos.mpr hq]

theorem nthRoot_zero_base_pos (pw : JSNum → JSNum → JSNum) {r : JSNum}
    (h : jsLt (.fin 0) r = true) : _nthRoot pw (.fin 0) r = .ok (.fin 0) := by
  obtain ⟨hinv, hne⟩ := pos_root_facts h
  have hpar : jsLt (JSNum.fin 0) (.fin 0) = false := by decide
  simp [_nthRoot, hinv, hne, hpar]

theorem nthRoot_inf_base_pos (pw : JSNum → JSNum → JSNum) {r : JSNum}
    (h : jsLt (.fin 0) r = true) : _nthRoot pw .inf r = .ok .inf := by
  obtain ⟨hinv, hne⟩ := pos_root_facts h
  have hpar : jsLt JSNum.inf (.fin 0) = false := by decide
  simp [_nthRoot, hinv, hne, hpar, jsFinite]

theorem nthRoot_nan_base_pos (pw : JSNum → JSNum → JSNum) {r : JSNum}
    (h : jsLt (.fin 0) r = true) : _nthRoot pw .nan r = .ok .nan := by
  obtain ⟨hinv, hne⟩ := pos_root_facts h
  have hpar : jsLt JSNum.nan (.fin 0) = false := by decide
  simp [_nthRoot, hinv, hne, hpar, jsFinite]

theorem nthRoot_ninf_base_pos (pw : JSNum → JSNum → JSNum) {r : JSNum}
    (h : jsLt (.fin 0) r = true) (hodd : jsMod (jsAbs r) (.fin 2) = .fin 1) :
    _nthRoot pw .ninf r = .ok .ninf := by
  obtain ⟨hinv, hne⟩ := pos_root_facts h
  simp [_nthRoot, hinv, hne, hodd, jsFinite]

theorem nthRoot_zero_base_neg (pw : JSNum → JSNum → JSNum) {r : JSNum}
    (h : jsLt r (.fin 0) = true) : _nthRoot pw (.fin 0) r = .ok .inf := by
  obtain ⟨hne, _⟩ := neg_root_facts h
  have hpar : jsLt (JSNum.fin 0) (.fin 0) = false := by decide
  simp [_nthRoot, h, hne, hpar]

theorem nthRoot_inf_base_neg (pw : JSNum → JSNum → JSNum) {r : JSNum}
    (h : jsLt r (.fin 0) = true) : _nthRoot pw .inf r = .ok (.fin 0) := by
  obtain ⟨hne, _⟩ := neg_root_facts h
  have hpar : jsLt JSNum.inf (.fin 0) = false := by decide
  simp [_nthRoot, h, hne, hpar, jsFinite]

theorem nthRoot_nan_base_neg (pw : JSNum → JSNum → JSNum) {r : JSNum}
    (h : jsLt r (.fin 0) = true) : _nthRoot pw .nan r = .ok (.fin 0) := by
  obtain ⟨hne, _⟩ := neg_root_facts h
  have hpar : jsLt JSNum.nan (.fin 0) = false := by decide
  simp [_nthRoot, h, hne, hpar, jsFinite]

theorem bigNthRoot_zero_base_pos (P : ℕ) (bp : JSNum → JSNum → JSNum)
    (tp : JSNum → ℕ → JSNum) (pa : ℕ) {rt : BigNum} (h : jsLt (.fin 0) rt.val = true) :
    _bigNthRoot P bp tp ⟨.fin 0, pa⟩ rt = .ok (.native (.fin 0)) := by
  obtain ⟨hinv, hne⟩ := pos_root_facts h
  have hpar : jsLt (JSNum.fin 0) (.fin 0) = false := by decide
  simp [_bigNthRoot, bigIsNeg, hinv, hne, hpar]

theorem bigNthRoot_zero_base_neg (P : ℕ) (bp : JSNum → JSNum → JSNum)
    (tp : JSNum → ℕ → JSNum) (pa : ℕ) {rt : BigNum} (h : jsLt rt.val (.fin 0) = true) :
    _bigNthRoot P bp tp ⟨.fin 0, pa⟩ rt = .ok (.big ⟨.inf, P + 2⟩) := by
  obtain ⟨hne, _⟩ := neg_root_facts h
  have hpar : jsLt (JSNum.fin 0) (.fin 0) = false := by decide
  simp [_bigNthRoot, bigIsNeg, h, hne, hpar]

theorem bigNthRoot_inf_base_pos (P : ℕ) (bp : JSNum → JSNum → JSNum)
    (tp : JSNum → ℕ → JSNum) (pa : ℕ) {rt : BigNum} (h : jsLt (.fin 0) rt.val = true) :
    _bigNthRoot P bp tp ⟨.inf, pa⟩ rt = .ok (.big ⟨.inf, pa⟩) := by
  obtain ⟨hinv, hne⟩ := pos_root_facts h
  have hpar : jsLt JSNum.inf (.fin 0) = false := by decide
  simp [_bigNthRoot, bigIsNeg, hinv, hne, hpar, jsFinite]

theorem bigNthRoot_inf_base_neg (P : ℕ) (bp : JSNum → JSNum → JSNum)
    (tp : JSNum → ℕ → JSNum) (pa : ℕ) {rt : BigNum} (h : jsLt rt.val (.fin 0) = true) :
    _bigNthRoot P bp tp ⟨.inf, pa⟩ rt = .ok (.big ⟨.fin 0, P⟩) := by
  obtain ⟨hne, _⟩ := neg_root_facts h
  have hpar : jsLt JSNum.inf (.fin 0) = false := by decide
  simp [_bigNthRoot, bigIsNeg, h, hne, hpar, jsFinite]

/-- A concrete stand-in for the abstracted `Math.pow`, used by witnesses. -/
def pow2 : JSNum → JSNum → JSNum := fun _ _ => .fin 2

/-- A concrete stand-in for `toPrecision` followed by reconstruction, used by
witnesses. -/
def keepPrec : JSNum → ℕ → JSNum := fun v _ => v

/-- C6: with a zero root, both scalar variants fail with `InvalidRoot`, for
every base `x` (including `0`, the infinities and NaN, showing the check fires
before the zero/infinity special-casing of the base). -/
theorem zero_root_invalid (pw : JSNum → JSNum → JSNum) (x : JSNum) (P : ℕ)
    (bigPow : JSNum → JSNum → JSNum) (toPrec : JSNum → ℕ → JSNum) (a root : BigNum)
    (hroot : root.val = .fin 0) :
    _nthRoot pw x (.fin 0) = .error .invalidRoot ∧
    _bigNthRoot P bigPow toPrec a root = .error .invalidRoot := by
  constructor
  · have hinv : jsLt (JSNum.fin 0) (.fin 0) = false := by decide
    simp [_nthRoot, hinv]
  · have hinv : bigIsNeg (JSNum.fin 0) = false := by decide
    simp [_bigNthRoot, hroot, hinv]

/-- C6 witness: the zero-root failure evaluated at concrete inputs, one per
kind of base (zero, infinite, NaN, negative) and in both variants. -/
theorem zero_root_invalid_instance :
    _nthRoot pow2 .inf (.fin 0) = .error .invalidRoot ∧
    _bigNthRoot 10 pow2 keepPrec ⟨.fin (-4), 10⟩ ⟨.fin 0, 7⟩ = .error .invalidRoot :=
  zero_root_invalid pow2 .inf 10 pow2 keepPrec ⟨.fin (-4), 10⟩ ⟨.fin 0, 7⟩ rfl

/-- C4: for roots passing the sign and parity checks, a zero base gives `0`
for an originally positive root and `+Infinity` for an originally negative
one, and a `+Infinity` base gives `+Infinity` for a positive root and `0` for
a negative one — in the double-precision and the arbitrary-precision variant
alike (the parity check never fires for these bases, and a nonzero signed
root always passes the zero-root check). -/
theorem scalar_zero_and_infinity_bases (pw : JSNum → JSNum → JSNum) (r : JSNum)
    (P : ℕ) (bigPow : JSNum → JSNum → JSNum) (toPrec : JSNum → ℕ → JSNum)
    (pa : ℕ) (rt : BigNum) :
    (jsLt (.fin 0) r = true →
      _nthRoot pw (.fin 0) r = .ok (.fin 0) ∧ _nthRoot pw .inf r = .ok .inf) ∧
    (jsLt r (.fin 0) = true →
      _nthRoot pw (.fin 0) r = .ok .inf ∧ _nthRoot pw .inf r = .ok (.fin 0)) ∧
    (jsLt (.fin 0) rt.val = true →
      _bigNthRoot P bigPow toPrec ⟨.fin 0, pa⟩ rt = .ok (.native (.fin 0)) ∧
      _bigNthRoot P bigPow toPrec ⟨.inf, pa⟩ rt = .ok (.big ⟨.inf, pa⟩)) ∧
    (jsLt rt.val (.fin 0) = true →
      _bigNthRoot P bigPow toPrec ⟨.fin 0, pa⟩ rt = .ok (.big ⟨.inf, P + 2⟩) ∧
      _bigNthRoot P bigPow toPrec ⟨.inf, pa⟩ rt = .ok (.big ⟨.fin 0, P⟩)) :=
  ⟨fun h => ⟨nthRoot_zero_base_pos pw h, nthRoot_inf_base_pos pw h⟩,
   fun h => ⟨nthRoot_zero_base_neg pw h, nthRoot_inf_base_neg pw h⟩,
   fun h => ⟨bigNthRoot_zero_base_pos P bigPow toPrec pa h,
     bigNthRoot_inf_base_pos P bigPow toPrec pa h⟩,
   fun h => ⟨bigNthRoot_zero_base_neg P bigPow toPrec pa h,
     bigNthRoot_inf_base_neg P bigPow toPrec pa h⟩⟩

/-- C4 witness: the zero/infinity base rules evaluated at the concrete roots
`3` and `-3`, in both variants. -/
theorem scalar_zero_and_infinity_bases_instance :
    (_nthRoot pow2 (.fin 0) (.fin 3) = .ok (.fin 0) ∧
      _nthRoot pow2 .inf (.fin 3) = .ok .inf) ∧
    (_nthRoot pow2 (.fin 0) (.fin (-3)) = .ok .inf ∧
      _nthRoot pow2 .inf (.fin (-3)) = .ok (.fin 0)) ∧
    (_bigNthRoot 10 pow2 keepPrec ⟨.fin 0, 10⟩ ⟨.fin 3, 10⟩ = .ok (.native (.fin 0)) ∧
      _bigNthRoot 10 pow2 keepPrec ⟨.inf, 10⟩ ⟨.fin 3, 10⟩ = .ok (.big ⟨.inf, 10⟩)) ∧
    (_bigNthRoot 10 pow2 keepPrec ⟨.fin 0, 10⟩ ⟨.fin (-3), 10⟩ = .ok (.big ⟨.inf, 12⟩) ∧
      _bigNthRoot 10 pow2 keepPrec ⟨.inf, 10⟩ ⟨.fin (-3), 10⟩ = .ok (.big ⟨.fin 0, 10⟩)) := by
  have h3 := scalar_zero_and_infinity_bases pow2 (.fin 3) 10 pow2 keepPrec 10 ⟨.fin 3, 10⟩
  have hm := scalar_zero_and_infinity_bases pow2 (.fin (-3)) 10 pow2 keepPrec 10 ⟨.fin (-3), 10⟩
  exact ⟨h3.1 (by decide), hm.2.1 (by decide), h3.2.2.1 (by decide), hm.2.2.2 (by decide)⟩

/-- C10: the double-precision variant routes every non-finite base through the
infinity rule: a NaN base with a positive root returns NaN, a NaN base with
the negated root returns `0`, and a `-Infinity` base with a positive root
passing the oddness test returns `-Infinity` — none of these fail. -/
theorem nonfinite_base_rule (pw : JSNum → JSNum → JSNum) (r : JSNum)
    (h : jsLt (.fin 0) r = true) :
    _nthRoot pw .nan r = .ok .nan ∧
    _nthRoot pw .nan (jsNeg r) = .ok (.fin 0) ∧
    (jsMod (jsAbs r) (.fin 2) = .fin 1 → _nthRoot pw .ninf r = .ok .ninf) :=
  ⟨nthRoot_nan_base_pos pw h, nthRoot_nan_base_neg pw (jsNeg_lt_zero h),
   fun hodd => nthRoot_ninf_base_pos pw h hodd⟩

/-- C10 witness: the non-finite-base rules evaluated at the concrete root
`3`. -/
theorem nonfinite_base_rule_instance :
    _nthRoot pow2 .nan (.fin 3) = .ok .nan ∧
    _nthRoot pow2 .nan (jsNeg (.fin 3)) = .ok (.fin 0) ∧
    _nthRoot pow2 .ninf (.fin 3) = .ok .ninf := by
  have h := nonfinite_base_rule pow2 (.fin 3) (by decide)
  exact ⟨h.1, h.2.1, h.2.2 (by decide)⟩

/-- C5 counterexample: at root `0` (whose absolute value is not an odd
integer) and a negative base, the zero-root check fires first, so the failure
is `InvalidRoot`, not `InvalidRootParity` as the claim, read literally for
every non-odd root, would require. -/
theorem parity_zero_root_precedence :
    jsLt (.fin (-1)) (.fin 0) = true ∧
    jsMod (jsAbs (.fin 0)) (.fin 2) ≠ .fin 1 ∧
    _nthRoot pow2 (.fin (-1)) (.fin 0) = .error .invalidRoot ∧
    _nthRoot pow2 (.fin (-1)) (.fin 0) ≠ .error .invalidRootParity := by decide

/-- C5 (amended with `r ≠ 0`, which the counterexample forces): for every
negative base and every nonzero root whose absolute value fails the oddness
test `abs(r) % 2 == 1`, both scalar variants fail with `InvalidRootParity`;
`ScalarNthRoot(-4, 2)` fails this way, while `ScalarNthRoot(-8, 3)` passes the
parity check and returns `-2` (whenever `pow` returns `2` on `(8, 1/3)`). -/
theorem negative_base_even_root_parity (pw : JSNum → JSNum → JSNum) (a r : JSNum)
    (P : ℕ) (bigPow : JSNum → JSNum → JSNum) (toPrec : JSNum → ℕ → JSNum) (ab rb : BigNum) :
    (jsLt a (.fin 0) = true → r ≠ .fin 0 → jsMod (jsAbs r) (.fin 2) ≠ .fin 1 →
      _nthRoot pw a r = .error .invalidRootParity) ∧
    (bigIsNeg ab.val = true → rb.val ≠ .fin 0 → jsMod (jsAbs rb.val) (.fin 2) ≠ .fin 1 →
      _bigNthRoot P bigPow toPrec ab rb = .error .invalidRootParity) ∧
    _nthRoot pw (.fin (-4)) (.fin 2) = .error .invalidRootParity ∧
    (pw (jsAbs (.fin (-8))) (jsDiv (.fin 1) (.fin 3)) = .fin 2 →
      _nthRoot pw (.fin (-8)) (.fin 3) = .ok (.fin (-2))) := by
  refine ⟨fun ha hr0 hpar => ?_, fun ha hr0 hpar => ?_, ?_, fun hpow => ?_⟩
  · by_cases hinv : jsLt r (.fin 0) = true
    · simp [_nthRoot, hinv, jsNeg_ne_zero hr0, jsAbs_jsNeg, ha, hpar]
    · simp only [Bool.not_eq_true] at hinv
      simp [_nthRoot, hinv, hr0, ha, hpar]
  · by_cases hinv : bigIsNeg rb.val = true
    · simp [_bigNthRoot, hinv, jsNeg_ne_zero hr0, jsAbs_jsNeg, ha, hpar]
    · simp only [Bool.not_eq_true] at hinv
      simp [_bigNthRoot, hinv, hr0, ha, hpar]
  · have h1 : jsLt (JSNum.fin 2) (.fin 0) = false := by decide
    have h2 : (JSNum.fin 2) ≠ (JSNum.fin 0) := by decide
    have h3 : jsLt (JSNum.fin (-4)) (.fin 0) = true := by decide
    have h4 : jsMod (jsAbs (JSNum.fin 2)) (.fin 2) ≠ .fin 1 := by decide
    simp [_nthRoot, h1, h2, h3, h4]
  · have h1 : jsLt (JSNum.fin 3) (.fin 0) = false := by decide
    have h2 : (JSNum.fin 3) ≠ (JSNum.fin 0) := by decide
    have h3 : ¬(jsLt (JSNum.fin (-8)) (.fin 0) = true ∧
        jsMod (jsAbs (JSNum.fin 3)) (.fin 2) ≠ .fin 1) := by decide
    have h4 : (JSNum.fin (-8)) ≠ .fin 0 := by decide
    have h5 : jsFinite (JSNum.fin (-8)) = true := by decide
    have h6 : jsLt (JSNum.fin (-8)) (.fin 0) = true := by decide
    simp only [_nthRoot, h1, if_false, Bool.false_eq_true]
    rw [if_neg h2, if_neg h3, if_neg h4]
    simp only [h5, h6, if_true, hpow]
    norm_num [jsNeg]

/-- C5 witness: the amended parity rule evaluated at base `-4`, root `2` in
both variants, and the odd-root example `(-8, 3)` returning `-2`. -/
theorem negative_base_even_root_parity_instance :
    _nthRoot pow2 (.fin (-4)) (.fin 2) = .error .invalidRootParity ∧
    _bigNthRoot 10 pow2 keepPrec ⟨.fin (-4), 10⟩ ⟨.fin 2, 10⟩ = .error .invalidRootParity ∧
    _nthRoot pow2 (.fin (-8)) (.fin 3) = .ok (.fin (-2)) := by
  have h := negative_base_even_root_parity pow2 (.fin (-4)) (.fin 2) 10 pow2 keepPrec
    ⟨.fin (-4), 10⟩ ⟨.fin 2, 10⟩
  exact ⟨h.1 (by decide) (by decide) (by decide),
    h.2.1 (by decide) (by decide) (by decide), h.2.2.2 rfl⟩

/-- C7 counterexample: at base NaN the inversion relation fails.  With root
`2` the call succeeds and returns NaN, so `1` divided by that result is NaN,
yet the call with root `-2` returns `0`. -/
theorem negative_root_inversion_nan :
    _nthRoot pow2 .nan (.fin 2) = .ok .nan ∧
    _nthRoot pow2 .nan (jsNeg (.fin 2)) = .ok (.fin 0) ∧
    jsDiv (.fin 1) .nan ≠ .fin 0 := by decide

/-- C7 (amended: the base NaN is excluded, as the counterexample forces —
there the negated-root call returns `0` while `1/NaN` is NaN): for every
non-NaN base and positive root on which the scalar nth root succeeds with
value `x`, the call with the negated root returns `1 / x` under JavaScript
division (so `1/0` is `+Infinity` and `1` over an infinity is `0`). -/
theorem negative_root_inversion (pw : JSNum → JSNum → JSNum) (a r x : JSNum)
    (hr : jsLt (.fin 0) r = true) (ha : a ≠ .nan)
    (hok : _nthRoot pw a r = .ok x) :
    _nthRoot pw a (jsNeg r) = .ok (jsDiv (.fin 1) x) := by
  obtain ⟨hinv, hne⟩ := pos_root_facts hr
  have hninv : jsLt (jsNeg r) (.fin 0) = true := jsNeg_lt_zero hr
  simp only [_nthRoot, hinv, hninv, if_true, if_false, Bool.false_eq_true,
    jsNeg_jsNeg] at hok ⊢
  rw [if_neg hne] at hok ⊢
  by_cases hpar : jsLt a (.fin 0) = true ∧ jsMod (jsAbs r) (.fin 2) ≠ .fin 1
  · rw [if_pos hpar] at hok
    exact absurd hok (by simp)
  · rw [if_neg hpar] at hok ⊢
    by_cases ha0 : a = .fin 0
    · rw [if_pos ha0] at hok ⊢
      simp only [Except.ok.injEq] at hok
      subst hok
      decide
    · rw [if_neg ha0] at hok ⊢
      by_cases hfin : jsFinite a = false
      · rw [if_pos hfin] at hok ⊢
        simp only [Except.ok.injEq] at hok
        subst hok
        cases a with
        | nan => exact absurd rfl ha
        | inf => decide
        | ninf => decide
        | fin q => simp [jsFinite] at hfin
      · rw [if_neg hfin] at hok ⊢
        simp only [Except.ok.injEq] at hok
        rw [hok]

/-- C7 witness: the amended inversion relation evaluated at base `9`, root
`2`, with a `pow` returning `2` there. -/
theorem negative_root_inversion_instance :
    _nthRoot pow2 (.fin 9) (jsNeg (.fin 2)) = .ok (jsDiv (.fin 1) (.fin 2)) :=
  negative_root_inversion pow2 (.fin 9) (.fin 2) (.fin 2) (by decide) (by decide) (by decide)

/-- C9: in the arbitrary-precision variant, a zero base with a positive root
returns the native number `0` (not a BigNumber), and with a negative root
returns a BigNumber Infinity built by the boosted-precision constructor
(`P + 2`) — in both cases for every `toPrec`, i.e. without passing through the
final `toPrecision` rounding; by contrast a finite positive base on the same
positive root does return `toPrec` applied to the computed value at the
caller precision `P`. -/
theorem big_zero_base_returns (P : ℕ) (bigPow : JSNum → JSNum → JSNum)
    (toPrec : JSNum → ℕ → JSNum) (a rt : BigNum) (q : ℚ) :
    (a.val = .fin 0 → jsLt (.fin 0) rt.val = true →
      _bigNthRoot P bigPow toPrec a rt = .ok (.native (.fin 0))) ∧
    (a.val = .fin 0 → jsLt rt.val (.fin 0) = true →
      _bigNthRoot P bigPow toPrec a rt = .ok (.big ⟨.inf, P + 2⟩)) ∧
    (a.val = .fin q → 0 < q → jsLt (.fin 0) rt.val = true →
      _bigNthRoot P bigPow toPrec a rt =
        .ok (.big ⟨toPrec (bigPow (jsAbs a.val) (jsDiv (.fin 1) rt.val)) P, P⟩)) := by
  obtain ⟨av, ap⟩ := a
  refine ⟨fun h0 hr => ?_, fun h0 hr => ?_, fun h0 hq hr => ?_⟩
  · simp only at h0
    subst h0
    exact bigNthRoot_zero_base_pos P bigPow toPrec ap hr
  · simp only at h0
    subst h0
    exact bigNthRoot_zero_base_neg P bigPow toPrec ap hr
  · simp only at h0
    subst h0
    obtain ⟨hinv, hne⟩ := pos_root_facts hr
    have haneg : jsLt (JSNum.fin q) (.fin 0) = false := by
      simp [jsLt, not_lt.mpr hq.le]
    have ha0 : (JSNum.fin q) ≠ .fin 0 := by simp [hq.ne']
    simp [_bigNthRoot, bigIsNeg, hinv, hne, haneg, ha0, jsFinite]

/-- C9 witness: the zero-base returns evaluated at precision `10` with
concrete roots `2` and `-2`, next to a generic-path call that does go through
`toPrec`. -/
theorem big_zero_base_returns_instance :
    _bigNthRoot 10 pow2 keepPrec ⟨.fin 0, 10⟩ ⟨.fin 2, 10⟩ = .ok (.native (.fin 0)) ∧
    _bigNthRoot 10 pow2 keepPrec ⟨.fin 0, 10⟩ ⟨.fin (-2), 10⟩ = .ok (.big ⟨.inf, 12⟩) ∧
    _bigNthRoot 10 pow2 keepPrec ⟨.fin 4, 10⟩ ⟨.fin 2, 10⟩ =
      .ok (.big ⟨keepPrec (pow2 (jsAbs (.fin 4)) (jsDiv (.fin 1) (.fin 2))) 10, 10⟩) := by
  have h1 := big_zero_base_returns 10 pow2 keepPrec ⟨.fin 0, 10⟩ ⟨.fin 2, 10⟩ 4
  have h2 := big_zero_base_returns 10 pow2 keepPrec ⟨.fin 0, 10⟩ ⟨.fin (-2), 10⟩ 4
  have h3 := big_zero_base_returns 10 pow2 keepPrec ⟨.fin 4, 10⟩ ⟨.fin 2, 10⟩ 4
  exact ⟨h1.1 rfl (by decide), h2.2.1 rfl (by decide),
    h3.2.2 rfl (by norm_num) (by decide)⟩

theorem nthRoot_error_kinds (pw : JSNum → JSNum → JSNum) (a r : JSNum) (e : NthRootError)
    (h : _nthRoot pw a r = .error e) :
    e = .invalidRoot ∨ e = .invalidRootParity := by
  simp only [_nthRoot] at h
  repeat' split at h
  all_goals try exact Or.inl (by injection h with h1; exact h1.symm)
  all_goals try exact Or.inr (by injection h with h1; exact h1.symm)
  all_goals simp at h

theorem scalarCompute_error_kinds (op : ScalarOp)
    (hop : ∀ a b e, op a b = .error e → e = .invalidRoot ∨ e = .invalidRootParity)
    (s : JSNum) (inverse : Bool) (l : List (ℕ × ℕ × JSNum)) (e : NthRootError)
    (h : scalarCompute op s inverse l = .error e) :
    e = .invalidRoot ∨ e = .invalidRootParity := by
  induction l with
  | nil => simp [scalarCompute] at h
  | cons hd tl ih =>
    simp only [scalarCompute] at h
    split at h
    · rename_i err heq
      injection h with h1
      subst h1
      cases inverse
      · exact hop _ _ _ (by simpa using heq)
      · exact hop _ _ _ (by simpa using heq)
    · rename_i v err heq1 heq2
      injection h with h1
      subst h1
      exact ih heq2
    · simp at h

theorem map_dense_ok {E : Except NthRootError DenseM} {r : RValue}
    (h : E.map RValue.dense = .ok r) : ∃ d, r = .dense d := by
  cases E with
  | error e => simp [Except.map] at h
  | ok d =>
    simp only [Except.map] at h
    injection h with h1
    exact ⟨d, h1.symm⟩

theorem map_sparse_ok {E : Except NthRootError SparseM} {r : RValue}
    (h : E.map RValue.sparse = .ok r) : ∃ m, r = .sparse m := by
  cases E with
  | error e => simp [Except.map] at h
  | ok m =>
    simp only [Except.map] at h
    injection h with h1
    exact ⟨m, h1.symm⟩

/-- C1: with a SparseMatrix as the root-side operand, all three dispatch
shapes (sparse base, dense base, scalar base) check the root matrix's
density: below 1 they fail with `NonInvertibleZero`, and at exactly 1 they
invoke the matching traversal strategy (`algorithm06`, `algorithm01`,
`algorithm11` with the inverse flag, respectively). -/
theorem nthRoot_sparse_root_density (pw : JSNum → JSNum → JSNum)
    (xs : SparseM) (xd : DenseM) (s : JSNum) (y : SparseM) :
    (y.density < 1 →
      nthRoot2 pw (.sparse xs) (.sparse y) = .error .nonInvertibleZero ∧
      nthRoot2 pw (.dense xd) (.sparse y) = .error .nonInvertibleZero ∧
      nthRoot2 pw (.num s) (.sparse y) = .error .nonInvertibleZero) ∧
    (y.density = 1 →
      nthRoot2 pw (.sparse xs) (.sparse y) = (algorithm06 (_nthRoot pw) xs y).map .sparse ∧
      nthRoot2 pw (.dense xd) (.sparse y) = (algorithm01 (_nthRoot pw) xd y false).map .dense ∧
      nthRoot2 pw (.num s) (.sparse y) = (algorithm11 (_nthRoot pw) y s true).map .sparse) := by
  constructor
  · intro h
    have hne : y.density ≠ 1 := ne_of_lt h
    simp [nthRoot2, hne]
  · intro h
    simp [nthRoot2, h]

/-- C1 witness: the density check evaluated at a 2×2 root matrix with one
stored entry (density 1/4) and at a 1×1 root matrix with one stored entry
(density 1), for the three shapes. -/
theorem nthRoot_sparse_root_density_instance :
    nthRoot2 pow2 (.num (.fin 2)) (.sparse ⟨2, 2, [(0, 0, .fin 8)]⟩) =
      .error .nonInvertibleZero ∧
    nthRoot2 pow2 (.sparse ⟨1, 1, [(0, 0, .fin 8)]⟩) (.sparse ⟨2, 2, [(0, 0, .fin 8)]⟩) =
      .error .nonInvertibleZero ∧
    nthRoot2 pow2 (.dense ⟨1, 1, [[.fin 8]]⟩) (.sparse ⟨2, 2, [(0, 0, .fin 8)]⟩) =
      .error .nonInvertibleZero ∧
    nthRoot2 pow2 (.num (.fin 2)) (.sparse ⟨1, 1, [(0, 0, .fin 8)]⟩) =
      (algorithm11 (_nthRoot pow2) ⟨1, 1, [(0, 0, .fin 8)]⟩ (.fin 2) true).map .sparse := by
  have hlow := nthRoot_sparse_root_density pow2 ⟨1, 1, [(0, 0, .fin 8)]⟩ ⟨1, 1, [[.fin 8]]⟩
    (.fin 2) ⟨2, 2, [(0, 0, .fin 8)]⟩
  have hfull := nthRoot_sparse_root_density pow2 ⟨1, 1, [(0, 0, .fin 8)]⟩ ⟨1, 1, [[.fin 8]]⟩
    (.fin 2) ⟨1, 1, [(0, 0, .fin 8)]⟩
  exact ⟨(hlow.1 (by decide)).2.2, (hlow.1 (by decide)).1, (hlow.1 (by decide)).2.1,
    (hfull.2 (by decide)).2.2⟩

/-- C3: the SparseDense shape (sparse base, dense root) fails with
`NonInvertibleZero` when the sparse operand has density below 1.  The
dispatcher cell itself performs no check and calls `algorithm02(y, x,
nthRoot, true)` unconditionally; the failure is the spec-modelled density
requirement of the `algorithm02` strategy. -/
theorem sparse_base_dense_root_failure (pw : JSNum → JSNum → JSNum)
    (X : SparseM) (Y : DenseM) (hr : X.rows = Y.rows) (hc : X.cols = Y.cols)
    (hd : X.density < 1) :
    nthRoot2 pw (.sparse X) (.dense Y) = .error .nonInvertibleZero := by
  have hne : X.density ≠ 1 := ne_of_lt hd
  simp [nthRoot2, algorithm02, hne, Except.map]

/-- C3 witness: the SparseDense density failure at a 2×2 sparse base with one
stored entry against a matching 2×2 dense root. -/
theorem sparse_base_dense_root_failure_instance :
    nthRoot2 pow2 (.sparse ⟨2, 2, [(0, 0, .fin 4)]⟩)
      (.dense ⟨2, 2, [[.fin 2, .fin 2], [.fin 2, .fin 2]]⟩) = .error .nonInvertibleZero :=
  sparse_base_dense_root_failure pow2 ⟨2, 2, [(0, 0, .fin 4)]⟩
    ⟨2, 2, [[.fin 2, .fin 2], [.fin 2, .fin 2]]⟩ rfl rfl (by decide)

/-- C2 counterexample: a 2×2 sparse base with one stored entry (density 1/4,
so it has implicit zeros) combined with the negative scalar root `-2` does not
fail at all — the dispatcher cell has no guard and `algorithm11` skips the
implicit zeros, returning a sparse result whose stored entry holds
`1 / sqrt(4)` while the implicit-zero coordinates stay implicit. -/
theorem sparse_negative_root_no_failure :
    SparseM.density ⟨2, 2, [(0, 0, .fin 4)]⟩ < 1 ∧
    jsLt (.fin (-2)) (.fin 0) = true ∧
    nthRoot2 pow2 (.sparse ⟨2, 2, [(0, 0, .fin 4)]⟩) (.num (.fin (-2))) =
      .ok (.sparse ⟨2, 2, [(0, 0, .fin (Rat.divInt 1 2))]⟩) := by decide

/-- C2 (amended, as the counterexample forces): for a SparseMatrix base and a
negative scalar root the dispatcher performs no density or sign guard — it
always invokes the sparse-scalar broadcast, which touches only the stored
entries and leaves implicit zeros implicit — and the call never fails with
`NonInvertibleZero` (the only failures are the scalar zero-root and parity
errors raised on stored entries). -/
theorem sparse_negative_root_broadcast (pw : JSNum → JSNum → JSNum)
    (X : SparseM) (r : JSNum) (hr : jsLt r (.fin 0) = true) :
    nthRoot2 pw (.sparse X) (.num r) = (algorithm11 (_nthRoot pw) X r false).map .sparse ∧
    nthRoot2 pw (.sparse X) (.num r) ≠ .error .nonInvertibleZero := by
  refine ⟨rfl, ?_⟩
  intro hcontra
  have hmap : (algorithm11 (_nthRoot pw) X r false).map RValue.sparse =
      .error .nonInvertibleZero := hcontra
  cases halg : algorithm11 (_nthRoot pw) X r false with
  | ok m => rw [halg] at hmap; simp [Except.map] at hmap
  | error e =>
    rw [halg] at hmap
    simp only [Except.map] at hmap
    injection hmap with h1
    subst h1
    unfold algorithm11 at halg
    cases hsc : scalarCompute (_nthRoot pw) r false X.entries with
    | ok _ => rw [hsc] at halg; simp [Except.map] at halg
    | error e2 =>
      rw [hsc] at halg
      simp only [Except.map] at halg
      injection halg with h2
      subst h2
      rcases scalarCompute_error_kinds (_nthRoot pw)
        (fun a b e3 h3 => nthRoot_error_kinds pw a b e3 h3) r false X.entries _ hsc with
        h | h <;> simp at h

/-- C2 amended-claim witness: the broadcast behaviour evaluated at the 2×2
sparse base with one stored entry and root `-2`. -/
theorem sparse_negative_root_broadcast_instance :
    nthRoot2 pow2 (.sparse ⟨2, 2, [(0, 0, .fin 4)]⟩) (.num (.fin (-2))) =
      (algorithm11 (_nthRoot pow2) ⟨2, 2, [(0, 0, .fin 4)]⟩ (.fin (-2)) false).map .sparse ∧
    nthRoot2 pow2 (.sparse ⟨2, 2, [(0, 0, .fin 4)]⟩) (.num (.fin (-2))) ≠
      .error .nonInvertibleZero :=
  sparse_negative_root_broadcast pow2 ⟨2, 2, [(0, 0, .fin 4)]⟩ (.fin (-2)) (by decide)

/-- C8: whenever the dispatcher accepts two matrix operands, the result's
storage kind is dense when either input is dense, and sparse exactly when
both are sparse; in particular a sparse base with a dense root yields a dense
matrix.  (The result kinds of the traversal strategies are spec-modelled, as
their code is not in this repository snapshot.) -/
theorem result_storage_kind (pw : JSNum → JSNum → JSNum) (x y : Operand) (r : RValue)
    (X : SparseM) (Y : DenseM) (r2 : RValue) :
    (x.isMat = true → y.isMat = true → nthRoot2 pw x y = .ok r →
      r.isDenseM = (x.isDense || y.isDense) ∧ r.isSparseM = (!x.isDense && !y.isDense)) ∧
    (nthRoot2 pw (.sparse X) (.dense Y) = .ok r2 → r2.isDenseM = true) := by
  have key : ∀ (x1 y1 : Operand) (r1 : RValue), x1.isMat = true → y1.isMat = true →
      nthRoot2 pw x1 y1 = .ok r1 →
      r1.isDenseM = (x1.isDense || y1.isDense) ∧
      r1.isSparseM = (!x1.isDense && !y1.isDense) := by
    intro x1 y1 r1 hx hy hok
    cases x1 with
    | num a => simp [Operand.isMat] at hx
    | dense xd =>
      cases y1 with
      | num b => simp [Operand.isMat] at hy
      | dense yd =>
        simp only [nthRoot2] at hok
        obtain ⟨d, rfl⟩ := map_dense_ok hok
        simp [RValue.isDenseM, RValue.isSparseM, Operand.isDense]
      | sparse ys =>
        simp only [nthRoot2] at hok
        split at hok
        · obtain ⟨d, rfl⟩ := map_dense_ok hok
          simp [RValue.isDenseM, RValue.isSparseM, Operand.isDense]
        · simp at hok
    | sparse xs =>
      cases y1 with
      | num b => simp [Operand.isMat] at hy
      | dense yd =>
        simp only [nthRoot2] at hok
        obtain ⟨d, rfl⟩ := map_dense_ok hok
        simp [RValue.isDenseM, RValue.isSparseM, Operand.isDense]
      | sparse ys =>
        simp only [nthRoot2] at hok
        split at hok
        · obtain ⟨m, rfl⟩ := map_sparse_ok hok
          simp [RValue.isDenseM, RValue.isSparseM, Operand.isDense]
        · simp at hok
  refine ⟨key x y r, fun hok => ?_⟩
  exact (key (.sparse X) (.dense Y) r2 rfl rfl hok).1

/-- C8 witness: a density-1 sparse base with a matching dense root dispatches
successfully and the result is dense. -/
theorem result_storage_kind_instance :
    (RValue.isDenseM (.dense ⟨1, 1, [[.fin 2]]⟩) =
      (Operand.isDense (.sparse ⟨1, 1, [(0, 0, .fin 4)]⟩) ||
        Operand.isDense (.dense ⟨1, 1, [[.fin 2]]⟩))) ∧
    RValue.isDenseM (.dense ⟨1, 1, [[.fin 2]]⟩) = true := by
  have h := result_storage_kind pow2 (.sparse ⟨1, 1, [(0, 0, .fin 4)]⟩)
    (.dense ⟨1, 1, [[.fin 2]]⟩) (.dense ⟨1, 1, [[.fin 2]]⟩)
    ⟨1, 1, [(0, 0, .fin 4)]⟩ ⟨1, 1, [[.fin 2]]⟩ (.dense ⟨1, 1, [[.fin 2]]⟩)
  exact ⟨(h.1 rfl rfl (by decide)).1, h.2 (by decide)⟩
